import Mathlib

/-!
Shallow embedding of the playlist-gen-blitz core (src/app/spotify/spotifyApi.ts and
src/app/lib/smartLabel.ts) for checking the natural-language specification.
Machine dates are modelled as integers (milliseconds since the epoch) where arithmetic
matters, and as their source strings where they are only carried along.
-/

namespace PlaylistGen

/-! Lodash helpers used by the source (`chunk`, `uniq`, `uniqBy`, `difference`,
`differenceBy`).  `chunkList` is written with an explicit fuel argument (the list
length bounds the number of chunks) so that it reduces by kernel evaluation. -/

def chunkListGo (n : Nat) : Nat → List α → List (List α)
  | _, [] => []
  | 0, _ :: _ => []
  | fuel + 1, x :: xs => (x :: xs).take n :: chunkListGo n fuel ((x :: xs).drop n)

/-- Lodash `chunk(xs, n)`: split a list into consecutive chunks of size `n`. -/
def chunkList (n : Nat) (xs : List α) : List (List α) :=
  if n = 0 then [] else chunkListGo n xs.length xs

/-- Lodash `uniqBy` helper: drop elements whose key was already seen. -/
def uniqByKey (key : α → β) [DecidableEq β] (seen : List β) : List α → List α
  | [] => []
  | x :: xs =>
    if key x ∈ seen then uniqByKey key seen xs
    else x :: uniqByKey key (key x :: seen) xs

/-- Lodash `uniqBy(xs, key)`: keep the first element for each key. -/
def uniqBy (key : α → β) [DecidableEq β] (xs : List α) : List α := uniqByKey key [] xs

/-- Lodash `uniq(xs)`. -/
def uniqList [DecidableEq α] (xs : List α) : List α := uniqBy id xs

/-- Lodash `difference(xs, ys)`. -/
def differenceList [DecidableEq α] (xs ys : List α) : List α :=
  xs.filter (fun x => decide (x ∉ ys))

/-! JavaScript `encodeURIComponent`: ASCII alphanumerics and `-_.!~*'()` are kept,
every other character is percent-encoded from its UTF-8 bytes with uppercase hex. -/

def hexDigitChar (n : Nat) : Char :=
  if n < 10 then Char.ofNat (48 + n) else Char.ofNat (55 + n)

def percentByte (b : Nat) : String :=
  "%" ++ String.mk [hexDigitChar (b / 16), hexDigitChar (b % 16)]

def uriUnreserved (c : Char) : Bool :=
  c.isAlphanum || decide (c ∈ [Char.ofNat 45, Char.ofNat 95, Char.ofNat 46, Char.ofNat 33,
    Char.ofNat 126, Char.ofNat 42, Char.ofNat 39, Char.ofNat 40, Char.ofNat 41])

def encodeUriChar (c : Char) : String :=
  if uriUnreserved c then String.singleton c
  else String.join (((String.singleton c).toUTF8.toList).map (fun b => percentByte b.toNat))

def encodeURIComponent (s : String) : String :=
  String.join (s.toList.map encodeUriChar)

/-! Data model: the rows of the local store touched by the sync core
(`db/schema.prisma`), restricted to the scalar fields the sync reads or writes.
`createdAt`/`updatedAt` are store-managed timestamps, out of scope per the spec. -/

structure Album where
  id : String
  name : String
  thumbnailUrl : String
  dateReleased : String
deriving DecidableEq

structure Artist where
  id : String
  name : String
  genres : List String
deriving DecidableEq

structure TrackRow where
  userId : Int
  spotifyId : String
  name : String
  albumId : String
  artistIds : List String
  dateAdded : String
  explicit : Bool
deriving DecidableEq

structure Db where
  albums : List Album
  artists : List Artist
  tracks : List TrackRow
deriving DecidableEq

/-! Payload shapes of the Spotify favorites feed (the `TracksResponse` zod schema). -/

structure SpotifyImage where
  url : String
deriving DecidableEq

structure SpotifyAlbum where
  id : String
  images : List SpotifyImage
  name : String
  release_date : String
deriving DecidableEq

structure SpotifyArtistRef where
  id : String
deriving DecidableEq

structure SpotifyTrack where
  album : SpotifyAlbum
  artists : List SpotifyArtistRef
  explicit : Bool
  id : String
  name : String
deriving DecidableEq

structure FavoriteItem where
  added_at : String
  track : SpotifyTrack
deriving DecidableEq

/-- Album row built from a feed item (`syncFavoriteTracks`, the `db.album.createMany`
data): `album.images[0]?.url` with the via.placeholder.com fallback. -/
def albumRow (album : SpotifyAlbum) : Album :=
  { id := album.id
    name := album.name
    thumbnailUrl :=
      ((album.images.head?.map SpotifyImage.url).getD
        ("https://via.placeholder.com/640.jpg?text=" ++ encodeURIComponent album.name))
    dateReleased := album.release_date }

/-- Track row built from a feed item (the `Prisma.TrackCreateInput` of
`syncFavoriteTracks`). -/
def trackInput (userId : Int) (item : FavoriteItem) : TrackRow :=
  { userId := userId
    spotifyId := item.track.id
    name := item.track.name
    albumId := item.track.album.id
    artistIds := item.track.artists.map SpotifyArtistRef.id
    dateAdded := item.added_at
    explicit := item.track.explicit }

/-- External artist metadata used by `lookupArtists`: id to (name, genres). -/
def ArtistInfo : Type := String → String × List String

def artistRowOf (info : ArtistInfo) (id : String) : Artist :=
  { id := id, name := (info id).1, genres := (info id).2 }

/-- The `lookupArtists` helper: load artist information 50 ids at a time.  Returns the
artist rows together with the number of batched artist-lookup fetches issued. -/
def lookupArtists (info : ArtistInfo) (ids : List String) : List Artist × Nat :=
  ((chunkList 50 ids).flatMap (fun c => c.map (artistRowOf info)), (chunkList 50 ids).length)

/-! One iteration of the `syncFavoriteTracks` loop body, decomposed into the source's
intermediate values. -/

def pageAlbumData (items : List FavoriteItem) : List Album :=
  uniqBy Album.id (items.map (fun it => albumRow it.track.album))

/-- `db.album.createMany` with `skipDuplicates`: only rows whose id is absent. -/
def pageNewAlbums (items : List FavoriteItem) (db : Db) : List Album :=
  (pageAlbumData items).filter (fun a => decide (a.id ∉ db.albums.map Album.id))

def pageTrackArtistIds (items : List FavoriteItem) : List String :=
  uniqList (items.flatMap (fun it => it.track.artists.map SpotifyArtistRef.id))

def pageExistingArtistIds (items : List FavoriteItem) (db : Db) : List String :=
  (db.artists.filter (fun a => decide (a.id ∈ pageTrackArtistIds items))).map Artist.id

def pageNewArtistIds (items : List FavoriteItem) (db : Db) : List String :=
  differenceList (pageTrackArtistIds items) (pageExistingArtistIds items db)

def pageNewTracks (userId : Int) (items : List FavoriteItem) : List TrackRow :=
  items.map (trackInput userId)

/-- `db.track.findMany` selecting `spotifyId` for this user's already-stored tracks
among the page's candidates. -/
def pageExistingTrackIds (userId : Int) (items : List FavoriteItem) (db : Db) : List String :=
  (db.tracks.filter (fun t =>
    decide (t.userId = userId) &&
      decide (t.spotifyId ∈ (pageNewTracks userId items).map TrackRow.spotifyId))).map
    TrackRow.spotifyId

/-- Lodash `differenceBy(newTracks, existingTracks, "spotifyId")`. -/
def pageMissingTracks (userId : Int) (items : List FavoriteItem) (db : Db) : List TrackRow :=
  (pageNewTracks userId items).filter
    (fun t => decide (t.spotifyId ∉ pageExistingTrackIds userId items db))

structure PageOutcome where
  db : Db
  albumRowsCreated : Nat
  artistRowsCreated : Nat
  trackRowsCreated : Nat
  artistFetches : Nat
  missingCount : Nat
deriving DecidableEq

/-- One pass of the `syncFavoriteTracks` loop body over a fetched page. -/
def syncPage (info : ArtistInfo) (userId : Int) (items : List FavoriteItem) (db : Db) :
    PageOutcome :=
  { db :=
      { albums := db.albums ++ pageNewAlbums items db
        artists := db.artists ++ (lookupArtists info (pageNewArtistIds items db)).1
        tracks := db.tracks ++ pageMissingTracks userId items db }
    albumRowsCreated := (pageNewAlbums items db).length
    artistRowsCreated := ((lookupArtists info (pageNewArtistIds items db)).1).length
    trackRowsCreated := (pageMissingTracks userId items db).length
    artistFetches := (lookupArtists info (pageNewArtistIds items db)).2
    missingCount := (pageMissingTracks userId items db).length }

structure SyncStats where
  pageFetches : Nat
  artistFetches : Nat
  albumRowsCreated : Nat
  artistRowsCreated : Nat
  trackRowsCreated : Nat
deriving DecidableEq

def emptyStats : SyncStats :=
  { pageFetches := 0, artistFetches := 0, albumRowsCreated := 0, artistRowsCreated := 0
    trackRowsCreated := 0 }

/-- The `while (true)` loop of `syncFavoriteTracks`.  A fetched page is
`feed.drop offset |>.take limit`; the loop repeats (with `offset += limit; limit = 25`)
exactly when every candidate track of the page was missing, i.e. when
`missingTracks.length === limit`.  `fuel` bounds the iterations; `none` means the fuel
ran out (never happens for `fuel > feed.length`). -/
def syncLoop (info : ArtistInfo) (userId : Int) (feed : List FavoriteItem) :
    Nat → Db → Nat → Nat → SyncStats → Option (Db × SyncStats)
  | 0, _, _, _, _ => none
  | fuel + 1, db, offset, limit, stats =>
    let items := (feed.drop offset).take limit
    let out := syncPage info userId items db
    let stats' : SyncStats :=
      { pageFetches := stats.pageFetches + 1
        artistFetches := stats.artistFetches + out.artistFetches
        albumRowsCreated := stats.albumRowsCreated + out.albumRowsCreated
        artistRowsCreated := stats.artistRowsCreated + out.artistRowsCreated
        trackRowsCreated := stats.trackRowsCreated + out.trackRowsCreated }
    if out.missingCount = limit then
      syncLoop info userId feed fuel out.db (offset + limit) 25 stats'
    else
      some (out.db, stats')

/-- `syncFavoriteTracks` (pullFavorites): pull the user's favorites into the store,
starting at offset 0 with page size 5. -/
def syncFavoriteTracks (info : ArtistInfo) (userId : Int) (feed : List FavoriteItem)
    (db : Db) : Option (Db × SyncStats) :=
  syncLoop info userId feed (feed.length + 1) db 0 5 emptyStats

/-! Playlist push sync (`syncPlaylists`, phase 2: per-playlist content push).
The label row carries the explicit track relation loaded by the `include`
(only `spotifyId` of those rows is ever read; we keep full rows) and the
criteria string; the compiled criteria filter is the `generatePrismaFilter`
result interpreted by the store, taken here as a row predicate. -/

structure LabelRecord where
  name : String
  smartCriteria : Option String
  tracks : List TrackRow
deriving DecidableEq

structure PlaylistRecord where
  spotifyId : String
  label : LabelRecord
deriving DecidableEq

inductive SpotifyCall where
  | replace (playlistId : String) (uris : List String)
  | append (playlistId : String) (uris : List String)
  | remove (playlistId : String) (uris : List String)
deriving DecidableEq

def isUploadCall : SpotifyCall → Bool
  | SpotifyCall.replace _ _ => true
  | SpotifyCall.append _ _ => true
  | SpotifyCall.remove _ _ => false

def isRemoveCall : SpotifyCall → Bool
  | SpotifyCall.replace _ _ => false
  | SpotifyCall.append _ _ => false
  | SpotifyCall.remove _ _ => true

def dummyTrackSpotifyId : String := "41MCdlvXOl62B7Kv86Bb1v"

def trackUri (spotifyId : String) : String := "spotify:track:" ++ spotifyId

/-- A compiled criteria filter as interpreted by the store against track rows. -/
def TrackFilter : Type := TrackRow → Bool

/-- The criteria compiler as seen by `syncPlaylists` (`generatePrismaFilter`
composed with the store's interpretation of the produced filter); `none` models the
source's `null` result for invalid criteria. -/
def CompileFn : Type := String → Option TrackFilter

/-- Resolution of a playlist's track list (`let { tracks } = playlist.label` and the
smart-label override).  For a smart label the source runs
`db.track.findMany({ where: { userId: user.id, ...generatePrismaFilter(smartCriteria) } })`
inside `try`/`catch`: a `null` filter spreads to no extra conditions, so the query
filters by `userId` alone and succeeds, and the `catch` branch (which would log the
error and leave `tracks = []`) is not taken; the returned flag records whether an
error was logged. -/
def resolveTracks (compile : CompileFn) (db : Db) (userId : Int) (label : LabelRecord) :
    List TrackRow × Bool :=
  match label.smartCriteria with
  | none => (label.tracks, false)
  | some crit =>
    match compile crit with
    | none => (db.tracks.filter (fun t => decide (t.userId = userId)), false)
    | some f => (db.tracks.filter (fun t => decide (t.userId = userId) && f t), false)

/-- The chunked upload loop: the resolved ids (or the dummy id when the resolved set is
empty) in chunks of 50; the first chunk is a PUT (replace), later chunks are POST
(append). -/
def uploadCallsFor (playlistSpotifyId : String) (trackSpotifyIds : List String) :
    List SpotifyCall :=
  ((chunkList 50
      (if trackSpotifyIds.length > 0 then trackSpotifyIds else [dummyTrackSpotifyId])).enum).map
    (fun p =>
      if p.1 = 0 then SpotifyCall.replace playlistSpotifyId (p.2.map trackUri)
      else SpotifyCall.append playlistSpotifyId (p.2.map trackUri))

structure PushResult where
  calls : List SpotifyCall
  loggedError : Bool
deriving DecidableEq

/-- The per-playlist body of `syncPlaylists` phase 2: upload the resolved tracks in
chunks, then remove the dummy track again — the source gates that removal on
`playlist.label.tracks.length === 0`, i.e. on the stored relation. -/
def pushPlaylist (compile : CompileFn) (db : Db) (userId : Int) (playlist : PlaylistRecord) :
    PushResult :=
  { calls :=
      uploadCallsFor playlist.spotifyId
          (((resolveTracks compile db userId playlist.label).1).map TrackRow.spotifyId)
        ++ (if playlist.label.tracks.length = 0 then
              [SpotifyCall.remove playlist.spotifyId [trackUri dummyTrackSpotifyId]]
            else [])
    loggedError := (resolveTracks compile db userId playlist.label).2 }

/-- `syncPlaylists` phase 2 over all of the user's playlists (pushed in parallel;
results listed in playlist order). -/
def syncPlaylists (compile : CompileFn) (db : Db) (userId : Int)
    (playlists : List PlaylistRecord) : List PushResult :=
  playlists.map (pushPlaylist compile db userId)

/-! Token manager and API client (`refreshAccessToken`, `spotifyFetch`).
Instants are milliseconds since the epoch. -/

structure User where
  id : Int
  createdAt : Int
  spotifyId : String
  avatarUrl : Option String
  accessToken : String
  accessTokenExpiresAt : Int
  refreshToken : String
deriving DecidableEq

/-- Body of the token endpoint's response (the `TokenResponse` zod schema). -/
structure TokenResponse where
  access_token : String
  expires_in : Int
deriving DecidableEq

/-- The single `db.user.update` issued per refresh: the row key and the
`modifiedFields` data object. -/
structure UserUpdateWrite where
  whereId : Int
  accessToken : String
  accessTokenExpiresAt : Int
deriving DecidableEq

/-- `refreshAccessToken`: exchange the refresh token, then persist the new access token
and its expiry (a minute early) and `Object.assign` the same fields onto the in-memory
user.  Returns the updated in-memory user and the list of persisted writes. -/
def refreshAccessToken (now : Int) (resp : TokenResponse) (user : User) :
    User × List UserUpdateWrite :=
  let expiresAt : Int := now + (resp.expires_in - 60) * 1000
  ({ user with accessToken := resp.access_token, accessTokenExpiresAt := expiresAt },
    [{ whereId := user.id, accessToken := resp.access_token,
       accessTokenExpiresAt := expiresAt }])

structure FetchOutcome where
  refreshCalls : Nat
  dbWrites : List UserUpdateWrite
  sentBearer : String
  user : User
deriving DecidableEq

/-- `spotifyFetch`: preemptively refresh when `new Date() > user.accessTokenExpiresAt`,
then send the request with `Authorization: Bearer ${user.accessToken}`. -/
def spotifyFetch (now : Int) (resp : TokenResponse) (user : User) : FetchOutcome :=
  if user.accessTokenExpiresAt < now then
    let refreshed := refreshAccessToken now resp user
    { refreshCalls := 1, dbWrites := refreshed.2, sentBearer := refreshed.1.accessToken,
      user := refreshed.1 }
  else
    { refreshCalls := 0, dbWrites := [], sentBearer := user.accessToken, user := user }

/-! Criteria compiler (`src/app/lib/smartLabel.ts`).  The parser it calls
(`app/lib/labelGrammar.ts`, generated from `labelGrammar.ne`) is not part of the
provided sources, so the grammar is modelled from the spec; `generatePrismaFilter` and
`validateSmartCriteria` themselves are translated from the source. -/

/-- Modelled from the spec: the predicate tree produced by the Criteria Compiler, "a
closed set of node variants (comparison, conjunction, disjunction, negation,
leaf-attribute-reference)". -/
inductive CriteriaValue where
  | strVal (s : String)
  | boolVal (b : Bool)
deriving DecidableEq

inductive CriteriaNode where
  | comparison (attr : String) (op : String) (value : CriteriaValue)
  | conj (l r : CriteriaNode)
  | disj (l r : CriteriaNode)
  | neg (e : CriteriaNode)
deriving DecidableEq

inductive Tok where
  | lparen
  | rparen
  | andTok
  | orTok
  | notTok
  | eqTok
  | neqTok
  | identTok (s : String)
  | strTok (s : String)
  | trueTok
  | falseTok
deriving DecidableEq

def quoteChar : Char := Char.ofNat 34

def isWordChar (c : Char) : Bool := c.isAlpha

/-- Scan the body of a string literal up to its closing quote; `none` when the input
ends before the quote (an unterminated string literal). -/
def takeStringLit : List Char → Option (List Char × List Char)
  | [] => none
  | c :: rest =>
    if c = quoteChar then some ([], rest)
    else
      match takeStringLit rest with
      | none => none
      | some (s, r) => some (c :: s, r)

/-- Split the longest run of word characters off the front. -/
def takeWord : List Char → List Char × List Char
  | [] => ([], [])
  | c :: rest =>
    if isWordChar c then
      let p := takeWord rest
      (c :: p.1, p.2)
    else ([], c :: rest)

def keywordTok (w : String) : Tok :=
  if w = "and" then Tok.andTok
  else if w = "or" then Tok.orTok
  else if w = "not" then Tok.notTok
  else if w = "true" then Tok.trueTok
  else if w = "false" then Tok.falseTok
  else Tok.identTok w

/-- Modelled from the spec: the lexer of the criteria language.  `fuel` bounds the
character count consumed (callers pass the input length); a lexical error — an
unterminated string or a character outside the language — yields `none`. -/
def lexGo : Nat → List Char → Option (List Tok)
  | _, [] => some []
  | 0, _ :: _ => none
  | fuel + 1, c :: rest =>
    if c = Char.ofNat 32 then lexGo fuel rest
    else if c = Char.ofNat 40 then (lexGo fuel rest).map (fun ts => Tok.lparen :: ts)
    else if c = Char.ofNat 41 then (lexGo fuel rest).map (fun ts => Tok.rparen :: ts)
    else if c = Char.ofNat 61 then (lexGo fuel rest).map (fun ts => Tok.eqTok :: ts)
    else if c = Char.ofNat 33 then
      match rest with
      | d :: rest2 =>
        if d = Char.ofNat 61 then (lexGo fuel rest2).map (fun ts => Tok.neqTok :: ts)
        else none
      | [] => none
    else if c = quoteChar then
      match takeStringLit rest with
      | none => none
      | some (s, r) => (lexGo fuel r).map (fun ts => Tok.strTok (String.mk s) :: ts)
    else if isWordChar c then
      let p := takeWord (c :: rest)
      (lexGo fuel p.2).map (fun ts => keywordTok (String.mk p.1) :: ts)
    else none

def lexTokens (s : String) : Option (List Tok) :=
  lexGo s.length s.toList

/-- Modelled from the spec: track attributes the grammar binds identifiers to; a
criteria string naming any other identifier is semantically invalid. -/
def knownAttrs : List String := ["name", "artist", "album", "explicit", "label", "added"]

def valueOfTok : Tok → Option CriteriaValue
  | Tok.strTok s => some (CriteriaValue.strVal s)
  | Tok.trueTok => some (CriteriaValue.boolVal true)
  | Tok.falseTok => some (CriteriaValue.boolVal false)
  | _ => none

/-! Modelled from the spec: recursive-descent parser with the spec's precedence
(`not` over `and` over `or`) and parenthesized grouping.  Each function returns the
parsed node and the remaining tokens; `fuel` (passed generously by the caller) bounds
the recursion. -/

mutual

def parseOrLevel : Nat → List Tok → Option (CriteriaNode × List Tok)
  | 0, _ => none
  | fuel + 1, ts =>
    match parseAndLevel fuel ts with
    | none => none
    | some (l, ts1) => parseOrRest fuel l ts1

def parseOrRest : Nat → CriteriaNode → List Tok → Option (CriteriaNode × List Tok)
  | 0, _, _ => none
  | fuel + 1, l, ts =>
    match ts with
    | Tok.orTok :: rest =>
      match parseAndLevel fuel rest with
      | none => none
      | some (r, ts2) => parseOrRest fuel (CriteriaNode.disj l r) ts2
    | _ => some (l, ts)

def parseAndLevel : Nat → List Tok → Option (CriteriaNode × List Tok)
  | 0, _ => none
  | fuel + 1, ts =>
    match parseNotLevel fuel ts with
    | none => none
    | some (l, ts1) => parseAndRest fuel l ts1

def parseAndRest : Nat → CriteriaNode → List Tok → Option (CriteriaNode × List Tok)
  | 0, _, _ => none
  | fuel + 1, l, ts =>
    match ts with
    | Tok.andTok :: rest =>
      match parseNotLevel fuel rest with
      | none => none
      | some (r, ts2) => parseAndRest fuel (CriteriaNode.conj l r) ts2
    | _ => some (l, ts)

def parseNotLevel : Nat → List Tok → Option (CriteriaNode × List Tok)
  | 0, _ => none
  | fuel + 1, ts =>
    match ts with
    | Tok.notTok :: rest =>
      match parseNotLevel fuel rest with
      | none => none
      | some (e, ts1) => some (CriteriaNode.neg e, ts1)
    | _ => parsePrimary fuel ts

def parsePrimary : Nat → List Tok → Option (CriteriaNode × List Tok)
  | 0, _ => none
  | fuel + 1, ts =>
    match ts with
    | Tok.lparen :: rest =>
      match parseOrLevel fuel rest with
      | none => none
      | some (e, ts1) =>
        match ts1 with
        | Tok.rparen :: ts2 => some (e, ts2)
        | _ => none
    | Tok.identTok attr :: opTok :: valTok :: ts3 =>
      if attr ∈ knownAttrs then
        match (if opTok = Tok.eqTok then some "=" else
               if opTok = Tok.neqTok then some "!=" else none),
              valueOfTok valTok with
        | some op, some v => some (CriteriaNode.comparison attr op v, ts3)
        | _, _ => none
      else none
    | _ => none

end

/-- Modelled from the spec: the result object of `parser.parse` from the generated
`labelGrammar` module — a success flag alongside the parsed predicate tree; parsing
never throws, and a syntactically or semantically invalid criteria string (including
an unterminated string literal or an unknown identifier) yields `success = false`. -/
structure ParseResult where
  success : Bool
  result : Option CriteriaNode

def labelGrammarParse (criteria : String) : ParseResult :=
  match lexTokens criteria with
  | none => { success := false, result := none }
  | some ts =>
    match parseOrLevel ((ts.length + 1) * 8) ts with
    | some (node, []) => { success := true, result := some node }
    | _ => { success := false, result := none }

/-- `generatePrismaFilter` from `smartLabel.ts`:
`result.success ? result.result : null`. -/
def generatePrismaFilter (criteria : String) : Option CriteriaNode :=
  let result := labelGrammarParse criteria
  if result.success then result.result else none

/-- `validateSmartCriteria` from `smartLabel.ts`:
`generatePrismaFilter(criteria) !== null`. -/
def validateSmartCriteria (criteria : String) : Bool :=
  (generatePrismaFilter criteria).isSome

/-! Auxiliary predicates about the favorites sync, and concrete instances used to
evaluate the model. -/

/-- Rows of `d1` all occur in `d2` (the sync only ever appends rows). -/
def dbRowsSub (d1 d2 : Db) : Prop :=
  (∀ a ∈ d1.albums, a ∈ d2.albums) ∧ (∀ a ∈ d1.artists, a ∈ d2.artists)
    ∧ (∀ t ∈ d1.tracks, t ∈ d2.tracks)

/-- Everything a fetched page references is already stored: its albums and artists by
id, and its tracks by `(userId, spotifyId)`. -/
def pagePresent (userId : Int) (items : List FavoriteItem) (db : Db) : Prop :=
  (∀ it ∈ items, it.track.album.id ∈ db.albums.map Album.id)
    ∧ (∀ it ∈ items, ∀ ar ∈ it.track.artists, ar.id ∈ db.artists.map Artist.id)
    ∧ (∀ it ∈ items, ∃ r ∈ db.tracks, r.userId = userId ∧ r.spotifyId = it.track.id)

def exTrack : TrackRow := ⟨0, "t1", "T1", "al", [], "d", false⟩

def exTrack2 : TrackRow := ⟨0, "t2", "T2", "al", [], "d", false⟩

def exMatchAll : CompileFn := fun _ => some (fun _ => true)

def exMatchNone : CompileFn := fun _ => some (fun _ => false)

def exCompileNull : CompileFn := fun _ => none

def exEmptyDb : Db := ⟨[], [], []⟩

def exDbOne : Db := ⟨[], [], [exTrack]⟩

def exDbTwo : Db := ⟨[], [], [exTrack, exTrack2]⟩

def exSmartPlaylist : PlaylistRecord := ⟨"P", ⟨"L", some "crit", []⟩⟩

def exSmartPlaylistRel : PlaylistRecord := ⟨"P", ⟨"L", some "crit", [exTrack]⟩⟩

def exStaticPlaylist : PlaylistRecord := ⟨"P2", ⟨"S", none, [exTrack]⟩⟩

def exRows51 : List TrackRow :=
  (List.range 51).map (fun i => ⟨0, "s" ++ toString i, "n", "al", [], "d", false⟩)

def exPlaylist51 : PlaylistRecord := ⟨"P51", ⟨"L51", none, exRows51⟩⟩

def exInfo : ArtistInfo := fun _ => ("N", [])

def exItem (i : String) : FavoriteItem :=
  ⟨"d", ⟨⟨"al", [⟨"u"⟩], "AL", "r"⟩, [⟨"ar"⟩], false, i, i⟩⟩

def exFeed3 : List FavoriteItem := [exItem "a", exItem "b", exItem "c"]

def exRowOf (i : String) : TrackRow := ⟨0, i, i, "al", ["ar"], "d", false⟩

def exDb3After : Db :=
  ⟨[⟨"al", "AL", "u", "r"⟩], [⟨"ar", "N", []⟩], [exRowOf "a", exRowOf "b", exRowOf "c"]⟩

def exKnownRow : TrackRow := ⟨0, "k", "K", "al", ["ar"], "d", false⟩

def exDbK : Db := ⟨[], [], [exKnownRow]⟩

def exFeed6 : List FavoriteItem :=
  [exItem "a", exItem "b", exItem "c", exItem "d", exItem "e", exItem "k"]

def exItemNoImage : FavoriteItem :=
  ⟨"d", ⟨⟨"alX", [], "Hello", "r"⟩, [⟨"ar"⟩], false, "x", "X"⟩⟩

/-! Helper lemmas. -/

theorem chunkListGo_congr {α : Type _} (n : Nat) (hn : n ≠ 0) :
    ∀ (fuel1 fuel2 : Nat) (xs : List α), xs.length ≤ fuel1 → xs.length ≤ fuel2 →
      chunkListGo n fuel1 xs = chunkListGo n fuel2 xs := by
  intro fuel1
  induction fuel1 with
  | zero =>
    intro fuel2 xs h1 _
    have hx : xs = [] := List.eq_nil_of_length_eq_zero (Nat.le_zero.mp h1)
    subst hx
    cases fuel2 <;> rfl
  | succ f ih =>
    intro fuel2 xs h1 h2
    cases xs with
    | nil => cases fuel2 <;> rfl
    | cons y ys =>
      cases fuel2 with
      | zero => simp at h2
      | succ f2 =>
        simp only [chunkListGo]
        congr 1
        apply ih
        · simp only [List.length_drop, List.length_cons]
          simp only [List.length_cons] at h1
          omega
        · simp only [List.length_drop, List.length_cons]
          simp only [List.length_cons] at h2
          omega

theorem chunkList_nil {α : Type _} (n : Nat) : chunkList n ([] : List α) = [] := by
  unfold chunkList
  split <;> rfl

theorem chunkList_cons {α : Type _} (n : Nat) (hn : n ≠ 0) (xs : List α) (hxs : xs ≠ []) :
    chunkList n xs = xs.take n :: chunkList n (xs.drop n) := by
  unfold chunkList
  rw [if_neg hn, if_neg hn]
  cases xs with
  | nil => exact absurd rfl hxs
  | cons y ys =>
    simp only [List.length_cons, chunkListGo]
    congr 1
    apply chunkListGo_congr n hn
    · simp only [List.length_drop, List.length_cons]
      omega
    · exact Nat.le_refl _

theorem chunkList_flatMap_map {α β : Type _} (n : Nat) (hn : n ≠ 0) (f : α → β) :
    ∀ (fuel : Nat) (xs : List α), xs.length ≤ fuel →
      (chunkList n xs).flatMap (fun c => c.map f) = xs.map f := by
  intro fuel
  induction fuel with
  | zero =>
    intro xs h
    have hx : xs = [] := List.eq_nil_of_length_eq_zero (Nat.le_zero.mp h)
    subst hx
    rw [chunkList_nil]
    rfl
  | succ fuel ih =>
    intro xs h
    cases xs with
    | nil =>
      rw [chunkList_nil]
      rfl
    | cons y ys =>
      rw [chunkList_cons n hn _ (List.cons_ne_nil y ys)]
      have hd : ((y :: ys).drop n).length ≤ fuel := by
        simp only [List.length_drop, List.length_cons]
        simp only [List.length_cons] at h
        omega
      simp only [List.flatMap_cons, ih _ hd]
      rw [← List.map_append, List.take_append_drop]

theorem lookupArtists_fst (info : ArtistInfo) (ids : List String) :
    (lookupArtists info ids).1 = ids.map (artistRowOf info) := by
  unfold lookupArtists
  exact chunkList_flatMap_map 50 (by omega) _ ids.length ids (Nat.le_refl _)

theorem lookupArtists_nil (info : ArtistInfo) : lookupArtists info [] = ([], 0) := by
  unfold lookupArtists
  rw [chunkList_nil]
  rfl

theorem mem_of_mem_uniqByKey {α β : Type _} {key : α → β} [DecidableEq β] :
    ∀ (seen : List β) (xs : List α) (y : α), y ∈ uniqByKey key seen xs → y ∈ xs := by
  intro seen xs
  induction xs generalizing seen with
  | nil =>
    intro y h
    simp [uniqByKey] at h
  | cons x xs ih =>
    intro y h
    simp only [uniqByKey] at h
    split at h
    · exact List.mem_cons_of_mem x (ih _ y h)
    · rcases List.mem_cons.mp h with h1 | h2
      · exact h1 ▸ List.mem_cons_self x xs
      · exact List.mem_cons_of_mem x (ih _ y h2)

theorem uniqByKey_covers {α β : Type _} {key : α → β} [DecidableEq β] :
    ∀ (xs : List α) (seen : List β) (x : α), x ∈ xs → key x ∉ seen →
      ∃ y, y ∈ uniqByKey key seen xs ∧ y ∈ xs ∧ key y = key x := by
  intro xs
  induction xs with
  | nil =>
    intro seen x hx _
    simp at hx
  | cons z zs ih =>
    intro seen x hx hseen
    simp only [uniqByKey]
    by_cases hz : key z ∈ seen
    · rw [if_pos hz]
      have hxz : x ∈ zs := by
        rcases List.mem_cons.mp hx with h1 | h2
        · exact absurd (h1 ▸ hseen) (fun hc => hc hz)
        · exact h2
      obtain ⟨y, h1, h2, h3⟩ := ih seen x hxz hseen
      exact ⟨y, h1, List.mem_cons_of_mem z h2, h3⟩
    · rw [if_neg hz]
      by_cases hxz : key x = key z
      · exact ⟨z, List.mem_cons_self _ _, List.mem_cons_self _ _, hxz.symm⟩
      · have hx' : x ∈ zs := by
          rcases List.mem_cons.mp hx with h1 | h2
          · exact absurd (congrArg key h1) hxz
          · exact h2
        have hseen' : key x ∉ key z :: seen := by
          simp only [List.mem_cons]
          rintro (h | h)
          · exact hxz h
          · exact hseen h
        obtain ⟨y, h1, h2, h3⟩ := ih (key z :: seen) x hx' hseen'
        exact ⟨y, List.mem_cons_of_mem z h1, List.mem_cons_of_mem z h2, h3⟩

theorem length_filter_lt_of_exists {α : Type _} {p : α → Bool} :
    ∀ (l : List α) (x : α), x ∈ l → p x = false → (l.filter p).length < l.length := by
  intro l
  induction l with
  | nil =>
    intro x hx _
    simp at hx
  | cons z zs ih =>
    intro x hx hpx
    rcases List.mem_cons.mp hx with h1 | h2
    · subst h1
      rw [List.filter_cons_of_neg (by simp [hpx])]
      have := List.length_filter_le p zs
      simp only [List.length_cons]
      omega
    · cases hz : p z with
      | true =>
        rw [List.filter_cons_of_pos (by simp [hz])]
        have := ih x h2 hpx
        simp only [List.length_cons]
        omega
      | false =>
        rw [List.filter_cons_of_neg (by simp [hz])]
        have := ih x h2 hpx
        simp only [List.length_cons]
        omega

theorem uploadCallsFor_filter_upload (pid : String) (ids : List String) :
    (uploadCallsFor pid ids).filter isUploadCall = uploadCallsFor pid ids := by
  apply List.filter_eq_self.mpr
  intro c hc
  unfold uploadCallsFor at hc
  obtain ⟨p, _, rfl⟩ := List.mem_map.mp hc
  split <;> rfl

theorem uploadCallsFor_filter_remove (pid : String) (ids : List String) :
    (uploadCallsFor pid ids).filter isRemoveCall = [] := by
  rw [List.filter_eq_nil_iff]
  intro c hc
  unfold uploadCallsFor at hc
  obtain ⟨p, _, rfl⟩ := List.mem_map.mp hc
  split <;> simp [isRemoveCall]

theorem enumFrom_map_ite {α β : Type _} (f g : α → β) :
    ∀ (l : List α) (n : Nat), n ≠ 0 →
      ((List.enumFrom n l).map (fun p => if p.1 = 0 then f p.2 else g p.2)) = l.map g := by
  intro l
  induction l with
  | nil => intro n _; rfl
  | cons x xs ih =>
    intro n hn
    simp only [List.enumFrom, List.map_cons, if_neg hn, ih (n + 1) (Nat.succ_ne_zero n)]

theorem dbRowsSub_refl (d : Db) : dbRowsSub d d :=
  ⟨fun _ h => h, fun _ h => h, fun _ h => h⟩

theorem dbRowsSub_trans {d1 d2 d3 : Db} (h12 : dbRowsSub d1 d2) (h23 : dbRowsSub d2 d3) :
    dbRowsSub d1 d3 :=
  ⟨fun a ha => h23.1 a (h12.1 a ha), fun a ha => h23.2.1 a (h12.2.1 a ha),
    fun t ht => h23.2.2 t (h12.2.2 t ht)⟩

theorem syncPage_rowsSub (info : ArtistInfo) (uid : Int) (items : List FavoriteItem)
    (db : Db) : dbRowsSub db (syncPage info uid items db).db := by
  refine ⟨?_, ?_, ?_⟩ <;> intro x hx <;> simp only [syncPage, List.mem_append] <;>
    exact Or.inl hx

/-- Definitional unfolding of one `syncLoop` iteration. -/
theorem syncLoop_succ (info : ArtistInfo) (uid : Int) (feed : List FavoriteItem)
    (fuel : Nat) (db : Db) (offset limit : Nat) (stats : SyncStats) :
    syncLoop info uid feed (fuel + 1) db offset limit stats
      = (if (syncPage info uid ((feed.drop offset).take limit) db).missingCount = limit then
          syncLoop info uid feed fuel (syncPage info uid ((feed.drop offset).take limit) db).db
            (offset + limit) 25
            { pageFetches := stats.pageFetches + 1
              artistFetches := stats.artistFetches
                + (syncPage info uid ((feed.drop offset).take limit) db).artistFetches
              albumRowsCreated := stats.albumRowsCreated
                + (syncPage info uid ((feed.drop offset).take limit) db).albumRowsCreated
              artistRowsCreated := stats.artistRowsCreated
                + (syncPage info uid ((feed.drop offset).take limit) db).artistRowsCreated
              trackRowsCreated := stats.trackRowsCreated
                + (syncPage info uid ((feed.drop offset).take limit) db).trackRowsCreated }
        else
          some ((syncPage info uid ((feed.drop offset).take limit) db).db,
            { pageFetches := stats.pageFetches + 1
              artistFetches := stats.artistFetches
                + (syncPage info uid ((feed.drop offset).take limit) db).artistFetches
              albumRowsCreated := stats.albumRowsCreated
                + (syncPage info uid ((feed.drop offset).take limit) db).albumRowsCreated
              artistRowsCreated := stats.artistRowsCreated
                + (syncPage info uid ((feed.drop offset).take limit) db).artistRowsCreated
              trackRowsCreated := stats.trackRowsCreated
                + (syncPage info uid ((feed.drop offset).take limit) db).trackRowsCreated })) :=
  rfl

theorem syncLoop_rowsSub (info : ArtistInfo) (uid : Int) (feed : List FavoriteItem) :
    ∀ (fuel : Nat) (db : Db) (offset limit : Nat) (stats : SyncStats) (db1 : Db)
      (s1 : SyncStats),
      syncLoop info uid feed fuel db offset limit stats = some (db1, s1) →
      dbRowsSub db db1 := by
  intro fuel
  induction fuel with
  | zero =>
    intro db offset limit stats db1 s1 h
    simp [syncLoop] at h
  | succ fuel ih =>
    intro db offset limit stats db1 s1 h
    rw [syncLoop_succ] at h
    split at h
    · exact dbRowsSub_trans (syncPage_rowsSub info uid _ db) (ih _ _ _ _ _ _ h)
    · obtain ⟨h1, -⟩ := Prod.mk.injEq .. ▸ Option.some.inj h
      exact h1 ▸ syncPage_rowsSub info uid _ db

theorem pagePresent_mono {uid : Int} {items : List FavoriteItem} {d1 d2 : Db}
    (hsub : dbRowsSub d1 d2) (hp : pagePresent uid items d1) : pagePresent uid items d2 := by
  obtain ⟨h1, h2, h3⟩ := hp
  refine ⟨?_, ?_, ?_⟩
  · intro it hit
    obtain ⟨a, ha, haid⟩ := List.mem_map.mp (h1 it hit)
    exact List.mem_map.mpr ⟨a, hsub.1 a ha, haid⟩
  · intro it hit ar har
    obtain ⟨a, ha, haid⟩ := List.mem_map.mp (h2 it hit ar har)
    exact List.mem_map.mpr ⟨a, hsub.2.1 a ha, haid⟩
  · intro it hit
    obtain ⟨r, hr, hrr⟩ := h3 it hit
    exact ⟨r, hsub.2.2 r hr, hrr⟩

theorem syncPage_presents (info : ArtistInfo) (uid : Int) (items : List FavoriteItem)
    (db : Db) : pagePresent uid items (syncPage info uid items db).db := by
  refine ⟨?_, ?_, ?_⟩
  · intro it hit
    simp only [syncPage, List.map_append, List.mem_append]
    by_cases hin : it.track.album.id ∈ db.albums.map Album.id
    · exact Or.inl hin
    · right
      have hmem : albumRow it.track.album ∈ items.map (fun i => albumRow i.track.album) :=
        List.mem_map_of_mem _ hit
      obtain ⟨y, hy1, -, hy3⟩ :=
        @uniqByKey_covers Album String Album.id _ _ [] _ hmem (by simp)
      have hyid : y.id = it.track.album.id := hy3
      have hnew : y ∈ pageNewAlbums items db := by
        unfold pageNewAlbums pageAlbumData uniqBy
        exact List.mem_filter.mpr ⟨hy1, by rw [decide_eq_true_eq, hyid]; exact hin⟩
      exact List.mem_map.mpr ⟨y, hnew, hyid⟩
  · intro it hit ar har
    simp only [syncPage, List.map_append, List.mem_append]
    by_cases hin : ar.id ∈ db.artists.map Artist.id
    · exact Or.inl hin
    · right
      have hbind : ar.id ∈ items.flatMap (fun i => i.track.artists.map SpotifyArtistRef.id) :=
        List.mem_flatMap.mpr ⟨it, hit, List.mem_map_of_mem _ har⟩
      obtain ⟨y, hy1, -, hy3⟩ :=
        @uniqByKey_covers String String id _ _ [] _ hbind (by simp)
      have hyid : y = ar.id := hy3
      subst hyid
      have htrk : ar.id ∈ pageTrackArtistIds items := hy1
      have hnotex : ar.id ∉ pageExistingArtistIds items db := by
        intro hex
        unfold pageExistingArtistIds at hex
        obtain ⟨row, hrow, hrowid⟩ := List.mem_map.mp hex
        exact hin (List.mem_map.mpr ⟨row, (List.mem_filter.mp hrow).1, hrowid⟩)
      have hnewid : ar.id ∈ pageNewArtistIds items db := by
        unfold pageNewArtistIds differenceList
        exact List.mem_filter.mpr ⟨htrk, by rw [decide_eq_true_eq]; exact hnotex⟩
      rw [lookupArtists_fst, List.map_map]
      have hcomp : (Artist.id ∘ artistRowOf info) = fun x => x := rfl
      rw [hcomp]
      simpa using hnewid
  · intro it hit
    by_cases hex : (trackInput uid it).spotifyId ∈ pageExistingTrackIds uid items db
    · obtain ⟨r, hr, hrid⟩ := List.mem_map.mp hex
      obtain ⟨hrdb, hrpred⟩ := List.mem_filter.mp hr
      rw [Bool.and_eq_true, decide_eq_true_eq, decide_eq_true_eq] at hrpred
      obtain ⟨hp1, -⟩ := hrpred
      refine ⟨r, ?_, hp1, hrid⟩
      simp only [syncPage, List.mem_append]
      exact Or.inl hrdb
    · refine ⟨trackInput uid it, ?_, rfl, rfl⟩
      simp only [syncPage, List.mem_append]
      right
      unfold pageMissingTracks
      refine List.mem_filter.mpr ⟨List.mem_map_of_mem _ hit, ?_⟩
      rw [decide_eq_true_eq]
      exact hex

theorem syncPage_noop (info : ArtistInfo) (uid : Int) (items : List FavoriteItem) (db : Db)
    (hpres : pagePresent uid items db) :
    syncPage info uid items db
      = { db := db, albumRowsCreated := 0, artistRowsCreated := 0, trackRowsCreated := 0,
          artistFetches := 0, missingCount := 0 } := by
  obtain ⟨h1, h2, h3⟩ := hpres
  have halb : pageNewAlbums items db = [] := by
    rw [pageNewAlbums, List.filter_eq_nil_iff]
    intro a ha
    have hms := mem_of_mem_uniqByKey [] _ a ha
    obtain ⟨it2, hit2, haid⟩ := List.mem_map.mp hms
    simp only [decide_eq_true_eq, Decidable.not_not]
    have : a.id = it2.track.album.id := by rw [← haid]; rfl
    rw [this]
    exact h1 it2 hit2
  have hart : pageNewArtistIds items db = [] := by
    rw [pageNewArtistIds, differenceList, List.filter_eq_nil_iff]
    intro aid haid
    have hms := mem_of_mem_uniqByKey [] _ aid haid
    obtain ⟨it2, hit2, hmem⟩ := List.mem_flatMap.mp hms
    obtain ⟨ar, har, rfl⟩ := List.mem_map.mp hmem
    simp only [decide_eq_true_eq, Decidable.not_not]
    obtain ⟨row, hrow, hrowid⟩ := List.mem_map.mp (h2 it2 hit2 ar har)
    have hrf : row ∈ db.artists.filter (fun a => decide (a.id ∈ pageTrackArtistIds items)) :=
      List.mem_filter.mpr ⟨hrow, by rw [decide_eq_true_eq, hrowid]; exact haid⟩
    exact List.mem_map.mpr ⟨row, hrf, hrowid⟩
  have htrk : pageMissingTracks uid items db = [] := by
    rw [pageMissingTracks, List.filter_eq_nil_iff]
    intro t ht
    obtain ⟨it2, hit2, rfl⟩ := List.mem_map.mp ht
    simp only [decide_eq_true_eq, Decidable.not_not]
    obtain ⟨r, hr, hru, hrs⟩ := h3 it2 hit2
    have hrf : r ∈ db.tracks.filter (fun t =>
        decide (t.userId = uid) &&
          decide (t.spotifyId ∈ (pageNewTracks uid items).map TrackRow.spotifyId)) := by
      refine List.mem_filter.mpr ⟨hr, ?_⟩
      rw [Bool.and_eq_true, decide_eq_true_eq, decide_eq_true_eq]
      refine ⟨hru, ?_⟩
      rw [hrs]
      exact List.mem_map.mpr ⟨trackInput uid it2, List.mem_map_of_mem _ hit2, rfl⟩
    exact List.mem_map.mpr ⟨r, hrf, hrs⟩
  simp only [syncPage, halb, hart, htrk, lookupArtists_nil, List.append_nil,
    List.length_nil]

theorem syncLoop_isSome (info : ArtistInfo) (uid : Int) (feed : List FavoriteItem) :
    ∀ (fuel : Nat) (db : Db) (offset limit : Nat) (stats : SyncStats),
      0 < limit → feed.length - offset < fuel →
      (syncLoop info uid feed fuel db offset limit stats).isSome = true := by
  intro fuel
  induction fuel with
  | zero =>
    intro db offset limit stats _ hf
    exact absurd hf (Nat.not_lt_zero _)
  | succ fuel ih =>
    intro db offset limit stats hl hf
    rw [syncLoop_succ]
    split
    · rename_i hcond
      apply ih
      · omega
      · have hmc : (pageMissingTracks uid ((feed.drop offset).take limit) db).length
            = limit := hcond
        have hle : (pageMissingTracks uid ((feed.drop offset).take limit) db).length
            ≤ ((feed.drop offset).take limit).length := by
          unfold pageMissingTracks
          refine le_trans (List.length_filter_le _ _) ?_
          unfold pageNewTracks
          rw [List.length_map]
        have hlen : ((feed.drop offset).take limit).length
            = min limit (feed.length - offset) := by
          rw [List.length_take, List.length_drop]
        omega
    · simp

theorem syncFavoriteTracks_isSome (info : ArtistInfo) (uid : Int) (feed : List FavoriteItem)
    (db : Db) : (syncFavoriteTracks info uid feed db).isSome = true := by
  unfold syncFavoriteTracks
  exact syncLoop_isSome info uid feed (feed.length + 1) db 0 5 emptyStats (by omega) (by omega)

theorem syncFavoriteTracks_first_step (info : ArtistInfo) (uid : Int)
    (feed : List FavoriteItem) (db db1 : Db) (s1 : SyncStats)
    (h : syncFavoriteTracks info uid feed db = some (db1, s1)) :
    dbRowsSub (syncPage info uid (feed.take 5) db).db db1 := by
  unfold syncFavoriteTracks at h
  rw [syncLoop_succ, List.drop_zero] at h
  split at h
  · exact syncLoop_rowsSub info uid feed _ _ _ _ _ _ _ h
  · obtain ⟨h1, -⟩ := Prod.mk.injEq .. ▸ Option.some.inj h
    exact h1 ▸ dbRowsSub_refl _

/-! Claim theorems. -/

/-- C1 (code bug): the spec says the final placeholder-removal decision is made on the
true resolved track set, but `syncPlaylists` gates the removal on
`playlist.label.tracks.length === 0`, the stored relation.  Concretely: a smart label
whose stored relation is empty (as the data model mandates for smart labels) but whose
criteria resolve to the single track `t1` gets its track uploaded and then still
receives a removal call for the placeholder — although its resolved set is non-empty,
contradicting the claim's "no removal call for the placeholder is issued". -/
theorem c1_placeholder_removal_decided_on_stored_relation :
    ((resolveTracks exMatchAll exDbOne 0 exSmartPlaylist.label).1 = [exTrack])
      ∧ pushPlaylist exMatchAll exDbOne 0 exSmartPlaylist
        = { calls := [SpotifyCall.replace "P" [trackUri "t1"],
                      SpotifyCall.remove "P" [trackUri dummyTrackSpotifyId]],
            loggedError := false } := by
  constructor
  · decide
  · decide

/-- C2 (code bug): when the criteria compiler returns `null`, the spread
`{ userId: user.id, ...null }` degenerates to the bare user filter, so the resolved set
is ALL of the user's tracks (here `t1` and `t2`), nothing is logged, and no error is
raised — the claim instead demands the empty set plus a logged error.  The sibling
static playlist is still pushed normally. -/
theorem c2_null_filter_resolves_all_user_tracks :
    syncPlaylists exCompileNull exDbTwo 0 [exSmartPlaylist, exStaticPlaylist]
      = [{ calls := [SpotifyCall.replace "P" [trackUri "t1", trackUri "t2"],
                     SpotifyCall.remove "P" [trackUri dummyTrackSpotifyId]],
           loggedError := false },
         { calls := [SpotifyCall.replace "P2" [trackUri "t1"]], loggedError := false }] := by
  decide

/-- C3 counterexample: two playlists identical except for the explicit track relation
of their smart label produce different push calls, so the explicit relation IS
consulted during the per-playlist push of a label with non-null criteria (for the
placeholder-removal decision), refuting the claim as stated. -/
theorem c3_counterexample_relation_consulted :
    exSmartPlaylist.label.smartCriteria = some "crit"
      ∧ exSmartPlaylistRel.label.smartCriteria = some "crit"
      ∧ exSmartPlaylist.spotifyId = exSmartPlaylistRel.spotifyId
      ∧ pushPlaylist exMatchNone exDbOne 0 exSmartPlaylist
          ≠ pushPlaylist exMatchNone exDbOne 0 exSmartPlaylistRel := by
  refine ⟨rfl, rfl, rfl, by decide⟩

/-- C3 amended: for a label with non-null criteria the uploaded track set (the
replace/append calls) and the logged-error flag are computed exclusively from compiling
the criteria string against the track store — they are independent of the explicit
track relation; the explicit relation is, however, consulted by the placeholder-removal
decision: the removal call is issued exactly when the stored relation is empty. -/
theorem c3_amended_upload_ignores_relation (compile : CompileFn) (db : Db) (userId : Int)
    (pid lname crit : String) (rel1 rel2 : List TrackRow) :
    ((pushPlaylist compile db userId ⟨pid, ⟨lname, some crit, rel1⟩⟩).calls.filter
          isUploadCall
        = (pushPlaylist compile db userId ⟨pid, ⟨lname, some crit, rel2⟩⟩).calls.filter
            isUploadCall)
      ∧ ((pushPlaylist compile db userId ⟨pid, ⟨lname, some crit, rel1⟩⟩).loggedError
          = (pushPlaylist compile db userId ⟨pid, ⟨lname, some crit, rel2⟩⟩).loggedError)
      ∧ ((pushPlaylist compile db userId ⟨pid, ⟨lname, some crit, rel1⟩⟩).calls.filter
            isRemoveCall
          = if rel1.length = 0 then
              [SpotifyCall.remove pid [trackUri dummyTrackSpotifyId]]
            else []) := by
  refine ⟨?_, ?_, ?_⟩
  · by_cases h1 : rel1.length = 0 <;> by_cases h2 : rel2.length = 0 <;>
      simp [h1, h2, pushPlaylist, List.filter_append, uploadCallsFor_filter_upload,
        resolveTracks, isUploadCall]
  · simp [pushPlaylist, resolveTracks]
  · by_cases h1 : rel1.length = 0 <;>
      simp [h1, pushPlaylist, List.filter_append, uploadCallsFor_filter_remove,
        isRemoveCall]

/-- C5: the resolved track ids are partitioned into chunks of 50; the first chunk is
sent as a replace call and every later chunk as an append call.  (In particular 50
resolved tracks give one replace and no append, and 51 give a replace of 50 and an
append of 1.) -/
theorem c5_chunked_upload (compile : CompileFn) (db : Db) (userId : Int)
    (playlist : PlaylistRecord)
    (h : ((resolveTracks compile db userId playlist.label).1).map TrackRow.spotifyId ≠ []) :
    (pushPlaylist compile db userId playlist).calls.filter isUploadCall
      = SpotifyCall.replace playlist.spotifyId
            (((((resolveTracks compile db userId playlist.label).1).map
              TrackRow.spotifyId).take 50).map trackUri)
          :: (chunkList 50
                ((((resolveTracks compile db userId playlist.label).1).map
                  TrackRow.spotifyId).drop 50)).map
              (fun c => SpotifyCall.append playlist.spotifyId (c.map trackUri)) := by
  simp only [pushPlaylist, List.filter_append, uploadCallsFor_filter_upload]
  have hre : ((if playlist.label.tracks.length = 0 then
      [SpotifyCall.remove playlist.spotifyId [trackUri dummyTrackSpotifyId]]
    else []).filter isUploadCall) = [] := by
    split <;> rfl
  rw [hre, List.append_nil]
  unfold uploadCallsFor
  have hlen :
      (((resolveTracks compile db userId playlist.label).1).map TrackRow.spotifyId).length
        > 0 := by
    cases hc : ((resolveTracks compile db userId playlist.label).1).map TrackRow.spotifyId
    · exact absurd hc h
    · simp
  rw [if_pos hlen, chunkList_cons 50 (by omega) _ h, List.enum_cons, List.map_cons]
  rw [if_pos rfl]
  congr 1
  exact enumFrom_map_ite
    (fun (c : List String) => SpotifyCall.replace playlist.spotifyId (c.map trackUri))
    (fun (c : List String) => SpotifyCall.append playlist.spotifyId (c.map trackUri)) _ 1
    (by omega)

/-- Witness for C5 at a static label holding 51 tracks: one replace call carrying the
first 50 uris followed by one append call carrying the last uri. -/
theorem c5_chunked_upload_witness :
    (((resolveTracks exMatchAll exEmptyDb 0 exPlaylist51.label).1).map TrackRow.spotifyId
        ≠ [])
      ∧ (pushPlaylist exMatchAll exEmptyDb 0 exPlaylist51).calls.filter isUploadCall
        = SpotifyCall.replace "P51"
              ((((exRows51.map TrackRow.spotifyId)).take 50).map trackUri)
            :: (chunkList 50 ((exRows51.map TrackRow.spotifyId).drop 50)).map
              (fun c => SpotifyCall.append "P51" (c.map trackUri)) :=
  ⟨by decide, c5_chunked_upload exMatchAll exEmptyDb 0 exPlaylist51 (by decide)⟩

/-- C7: `spotifyFetch` performs exactly one token refresh (with its single persisted
write) when the stored expiry instant is in the past at call time and sends the request
bearing the freshly obtained access token; otherwise it performs no refresh and sends
the stored token. -/
theorem c7_fetch_refreshes_expired_token (now : Int) (resp : TokenResponse) (user : User) :
    (spotifyFetch now resp user).refreshCalls
        = (if user.accessTokenExpiresAt < now then 1 else 0)
      ∧ (spotifyFetch now resp user).sentBearer
        = (if user.accessTokenExpiresAt < now then resp.access_token else user.accessToken)
      ∧ (spotifyFetch now resp user).dbWrites.length
        = (if user.accessTokenExpiresAt < now then 1 else 0) := by
  by_cases h : user.accessTokenExpiresAt < now <;>
    simp [spotifyFetch, refreshAccessToken, h]

/-- C8: `generatePrismaFilter` yields `null` (here `none`) on invalid criteria — an
unterminated string literal, an unknown identifier — rather than throwing (the
embedding is a total function); a valid conjunction compiles to a `conj` node; and
`validateSmartCriteria` returns `true` exactly when `generatePrismaFilter` returns a
non-null filter. -/
theorem c8_invalid_criteria_compile_to_null :
    generatePrismaFilter "artist = \"X" = none
      ∧ generatePrismaFilter "bogus = \"X\"" = none
      ∧ generatePrismaFilter "explicit = false and artist = \"X\""
          = some (CriteriaNode.conj
              (CriteriaNode.comparison "explicit" "=" (CriteriaValue.boolVal false))
              (CriteriaNode.comparison "artist" "=" (CriteriaValue.strVal "X")))
      ∧ ∀ criteria : String,
          validateSmartCriteria criteria = true ↔ generatePrismaFilter criteria ≠ none := by
  refine ⟨by decide, by decide, by decide, ?_⟩
  intro criteria
  unfold validateSmartCriteria
  cases generatePrismaFilter criteria <;> simp

/-- C9: a refresh persists exactly one user write containing only the new access token
and expiry, and the in-memory user record is updated to exactly those two fields — the
refresh token, external id, and every other modelled user field are untouched, and the
in-memory token matches the persisted one. -/
theorem c9_refresh_updates_only_token_fields (now : Int) (resp : TokenResponse)
    (user : User) :
    (refreshAccessToken now resp user).2
        = [{ whereId := user.id, accessToken := resp.access_token,
             accessTokenExpiresAt := now + (resp.expires_in - 60) * 1000 }]
      ∧ (refreshAccessToken now resp user).1
          = { user with accessToken := resp.access_token,
                        accessTokenExpiresAt := now + (resp.expires_in - 60) * 1000 }
      ∧ (refreshAccessToken now resp user).1.refreshToken = user.refreshToken
      ∧ (refreshAccessToken now resp user).1.spotifyId = user.spotifyId
      ∧ (refreshAccessToken now resp user).1.id = user.id
      ∧ (refreshAccessToken now resp user).1.avatarUrl = user.avatarUrl
      ∧ (refreshAccessToken now resp user).1.createdAt = user.createdAt := by
  exact ⟨rfl, rfl, rfl, rfl, rfl, rfl, rfl⟩

/-- C6: the favorites pull is idempotent — after a completed run, a second run against
the same feed performs zero additional writes (no album, artist, or track rows created)
and leaves the store unchanged: it issues one page fetch, finds nothing missing, and
stops. -/
theorem c6_pull_favorites_idempotent (info : ArtistInfo) (userId : Int)
    (feed : List FavoriteItem) (db db1 : Db) (stats1 : SyncStats)
    (h : syncFavoriteTracks info userId feed db = some (db1, stats1)) :
    syncFavoriteTracks info userId feed db1
      = some (db1, { pageFetches := 1, artistFetches := 0, albumRowsCreated := 0,
                     artistRowsCreated := 0, trackRowsCreated := 0 }) := by
  have hpres : pagePresent userId (feed.take 5) db1 :=
    pagePresent_mono (syncFavoriteTracks_first_step info userId feed db db1 stats1 h)
      (syncPage_presents info userId (feed.take 5) db)
  unfold syncFavoriteTracks
  rw [syncLoop_succ, List.drop_zero, syncPage_noop info userId (feed.take 5) db1 hpres]
  rw [if_neg (by simp)]
  rfl

/-- Witness for C6: pulling a three-item feed into an empty store and then pulling the
same feed again yields no new rows the second time. -/
theorem c6_pull_favorites_idempotent_witness :
    syncFavoriteTracks exInfo 0 exFeed3 exDb3After
      = some (exDb3After, { pageFetches := 1, artistFetches := 0, albumRowsCreated := 0,
                            artistRowsCreated := 0, trackRowsCreated := 0 }) :=
  c6_pull_favorites_idempotent exInfo 0 exFeed3 exEmptyDb exDb3After
    { pageFetches := 1, artistFetches := 1, albumRowsCreated := 1, artistRowsCreated := 1,
      trackRowsCreated := 3 } (by decide)

/-- C4 counterexample: the loop's continuation test is `missingTracks.length === limit`,
not "every track in the page was new": with an empty store and a feed of only three
tracks, the first fetched page (3 items) is entirely new (all 3 rows are created), yet
the pull stops after this single page fetch instead of continuing as the claim
states. -/
theorem c4_counterexample_short_all_new_page :
    (exFeed3.take 5).length = 3
      ∧ exEmptyDb.tracks = []
      ∧ (syncFavoriteTracks exInfo 0 exFeed3 exEmptyDb).map Prod.snd
          = some { pageFetches := 1, artistFetches := 1, albumRowsCreated := 1,
                   artistRowsCreated := 1, trackRowsCreated := 3 } := by
  refine ⟨by decide, rfl, by decide⟩

/-- C4 amended: after each page, the loop continues (offset advanced by the page size,
limit set to 25) exactly when the number of missing tracks equals the requested limit —
i.e. when the page was full AND entirely new; it terminates when any track already
existed locally (and also when the page was short).  In particular, a feed whose first
page of 5 is entirely new and whose next page of up to 25 contains an already-known
track is pulled with exactly two page fetches. -/
theorem c4_amended_two_fetches (info : ArtistInfo) (userId : Int)
    (feed : List FavoriteItem) (db : Db)
    (hfull : (feed.take 5).length = 5)
    (hnew : ∀ it ∈ feed.take 5, ∀ r ∈ db.tracks,
        ¬(r.userId = userId ∧ r.spotifyId = it.track.id))
    (hknown : ∃ it ∈ (feed.drop 5).take 25, ∃ r ∈ db.tracks,
        r.userId = userId ∧ r.spotifyId = it.track.id) :
    ∃ db2 stats2, syncFavoriteTracks info userId feed db = some (db2, stats2)
      ∧ stats2.pageFetches = 2 := by
  unfold syncFavoriteTracks
  rw [syncLoop_succ, List.drop_zero]
  have hmiss1 : pageMissingTracks userId (feed.take 5) db
      = pageNewTracks userId (feed.take 5) := by
    rw [pageMissingTracks, List.filter_eq_self]
    intro t ht
    rw [decide_eq_true_eq]
    intro hex
    obtain ⟨r, hr, hrid⟩ := List.mem_map.mp hex
    obtain ⟨hrdb, hrpred⟩ := List.mem_filter.mp hr
    rw [Bool.and_eq_true, decide_eq_true_eq, decide_eq_true_eq] at hrpred
    obtain ⟨it2, hit2, rfl⟩ := List.mem_map.mp ht
    exact hnew it2 hit2 r hrdb ⟨hrpred.1, hrid⟩
  have hc1 : (syncPage info userId (feed.take 5) db).missingCount = 5 := by
    show (pageMissingTracks userId (feed.take 5) db).length = 5
    rw [hmiss1]
    unfold pageNewTracks
    rw [List.length_map]
    exact hfull
  rw [if_pos hc1]
  simp only [Nat.zero_add]
  have hlen5 : 5 ≤ feed.length := by
    have := List.length_take 5 feed
    omega
  obtain ⟨m, hm⟩ : ∃ m, feed.length = m + 1 := ⟨feed.length - 1, by omega⟩
  rw [hm, syncLoop_succ]
  obtain ⟨itk, hitk, r, hrdb, hru, hrs⟩ := hknown
  have hrdb2 : r ∈ (syncPage info userId (feed.take 5) db).db.tracks :=
    (syncPage_rowsSub info userId (feed.take 5) db).2.2 r hrdb
  have hexk : (trackInput userId itk).spotifyId
      ∈ pageExistingTrackIds userId ((feed.drop 5).take 25)
          (syncPage info userId (feed.take 5) db).db := by
    refine List.mem_map.mpr ⟨r, List.mem_filter.mpr ⟨hrdb2, ?_⟩, hrs⟩
    rw [Bool.and_eq_true, decide_eq_true_eq, decide_eq_true_eq]
    refine ⟨hru, ?_⟩
    rw [hrs]
    exact List.mem_map.mpr ⟨trackInput userId itk, List.mem_map_of_mem _ hitk, rfl⟩
  have hlt : (pageMissingTracks userId ((feed.drop 5).take 25)
      (syncPage info userId (feed.take 5) db).db).length < 25 := by
    have h1 : (pageMissingTracks userId ((feed.drop 5).take 25)
        (syncPage info userId (feed.take 5) db).db).length
        < (pageNewTracks userId ((feed.drop 5).take 25)).length := by
      apply length_filter_lt_of_exists _ (trackInput userId itk)
        (List.mem_map_of_mem _ hitk)
      simp only [decide_eq_false_iff_not, Decidable.not_not]
      exact hexk
    have h2 : (pageNewTracks userId ((feed.drop 5).take 25)).length
        = ((feed.drop 5).take 25).length := by
      unfold pageNewTracks
      rw [List.length_map]
    have h3 : ((feed.drop 5).take 25).length ≤ 25 := by
      rw [List.length_take]
      omega
    omega
  rw [if_neg (by
    show ¬((pageMissingTracks userId ((feed.drop 5).take 25)
      (syncPage info userId (feed.take 5) db).db).length = 25)
    omega)]
  exact ⟨_, _, rfl, rfl⟩

/-- Witness for C4 (amended): a six-item feed whose first five tracks are new and whose
sixth is already stored is pulled with exactly two page fetches. -/
theorem c4_amended_two_fetches_witness :
    ∃ db2 stats2, syncFavoriteTracks exInfo 0 exFeed6 exDbK = some (db2, stats2)
      ∧ stats2.pageFetches = 2 :=
  c4_amended_two_fetches exInfo 0 exFeed6 exDbK (by decide) (by decide) (by decide)

/-- C10: for EVERY fetched page of the pull — each page, at whatever mid-loop store
`db`, is processed by exactly one pass of the loop body `syncPage` — an album
referenced by the page whose image list is empty and that is not yet stored is still
created, with its thumbnail set to the deterministic via.placeholder.com URL derived
from the album name (the content-uniqueness hypothesis pins down which item's payload
`uniqBy` keeps for that album id); moreover the pull never fails, on any feed and
store.  No null thumbnail exists in the model: the column is total. -/
theorem c10_album_without_images_gets_placeholder (info : ArtistInfo) (userId : Int)
    (items : List FavoriteItem) (db : Db) (it : FavoriteItem)
    (hit : it ∈ items)
    (himg : it.track.album.images = [])
    (hnotin : it.track.album.id ∉ db.albums.map Album.id)
    (huniq : ∀ it2 ∈ items, it2.track.album.id = it.track.album.id →
        it2.track.album = it.track.album) :
    albumRow it.track.album ∈ (syncPage info userId items db).db.albums
      ∧ (albumRow it.track.album).thumbnailUrl
          = "https://via.placeholder.com/640.jpg?text="
              ++ encodeURIComponent it.track.album.name
      ∧ ∀ (feed : List FavoriteItem) (db0 : Db),
          (syncFavoriteTracks info userId feed db0).isSome = true := by
  refine ⟨?_, ?_, ?_⟩
  · have hmem : albumRow it.track.album
        ∈ items.map (fun i => albumRow i.track.album) :=
      List.mem_map_of_mem _ hit
    obtain ⟨y, hy1, hy2, hy3⟩ :=
      @uniqByKey_covers Album String Album.id _ _ [] _ hmem (by simp)
    obtain ⟨it2, hit2, rfl⟩ := List.mem_map.mp hy2
    have hid2 : it2.track.album.id = it.track.album.id := hy3
    have halb2 : it2.track.album = it.track.album := huniq it2 hit2 hid2
    rw [halb2] at hy1
    have hnew : albumRow it.track.album ∈ pageNewAlbums items db := by
      unfold pageNewAlbums pageAlbumData uniqBy
      exact List.mem_filter.mpr ⟨hy1, by rw [decide_eq_true_eq]; exact hnotin⟩
    simp only [syncPage, List.mem_append]
    exact Or.inr hnew
  · unfold albumRow
    rw [himg]
    rfl
  · intro feed db0
    exact syncFavoriteTracks_isSome info userId feed db0

/-- Witness for C10: a page with one item whose album has no images, processed against
an empty store. -/
theorem c10_album_without_images_witness :
    albumRow exItemNoImage.track.album
        ∈ (syncPage exInfo 0 [exItemNoImage] exEmptyDb).db.albums
      ∧ (albumRow exItemNoImage.track.album).thumbnailUrl
          = "https://via.placeholder.com/640.jpg?text="
              ++ encodeURIComponent exItemNoImage.track.album.name
      ∧ ∀ (feed : List FavoriteItem) (db0 : Db),
          (syncFavoriteTracks exInfo 0 feed db0).isSome = true :=
  c10_album_without_images_gets_placeholder exInfo 0 [exItemNoImage] exEmptyDb
    exItemNoImage (by decide) rfl (by decide) (by decide)

end PlaylistGen
